import Mathlib

/-!
Verification development for the `simple-cache` repository.

The repository wraps a single-argument asynchronous function with a bounded
memoization layer: a doubly-linked recency list (`src/LinkedList.ts`) plus a
fingerprint-keyed entry table drive LRU eviction, reuse, invalidation and a
reentrancy guard (`src/Cache.ts`, the richer variant tracking `isResolved`).

The embedding below is a direct translation of those two files.  JavaScript
object identity is modelled with explicit heaps: linked-list nodes live in a
node heap addressed by node ids, cache entries live in an entry heap addressed
by entry ids, and promises are represented by ids allocated from a counter.
Heaps are never shrunk (objects persist while referenced), so a dangling
reference — a node id kept in `tail` after the node left the lookup map — keeps
denoting the same mutable object, exactly as in JavaScript.
-/

namespace SimpleCache

/-- JS `Map.get` / `WeakMap.get` over an association list. -/
def assocGet {κ α : Type} [BEq κ] (l : List (κ × α)) (k : κ) : Option α :=
  (l.find? (fun p => p.1 == k)).map (·.2)

/-- JS `Map.delete` / `WeakMap.delete`. -/
def assocDel {κ α : Type} [BEq κ] (l : List (κ × α)) (k : κ) : List (κ × α) :=
  l.filter (fun p => p.1 != k)

/-- JS `Map.set` / `WeakMap.set`; keys stay unique so the list length is the
map's size. -/
def assocSet {κ α : Type} [BEq κ] (l : List (κ × α)) (k : κ) (v : α) : List (κ × α) :=
  (k, v) :: assocDel l k

/-- One node of the doubly linked list (`LinkedListItem` in the source):
`item` is the entry it carries, `closer`/`further` are the neighbour
references towards the head and towards the tail. -/
structure LLNode where
  item : Nat
  closer : Option Nat
  further : Option Nat
deriving Repr, DecidableEq

/-- The `LinkedList` class state.  `nodes` is the node heap (node objects are
never deallocated, mirroring garbage-collected references), `lookup` is the
`WeakMap` from item to node, and `nextNode` allocates fresh node ids. -/
structure LinkedList where
  nodes : List (Nat × LLNode)
  lookup : List (Nat × Nat)
  head : Option Nat
  tail : Option Nat
  length : Nat
  nextNode : Nat
deriving Repr, DecidableEq

def LinkedList.empty : LinkedList := ⟨[], [], none, none, 0, 0⟩

/-- Dereference a node id in the heap.  Reachable states only dereference
live ids; the default is never hit on traces produced by the operations. -/
def getNode (ll : LinkedList) (nid : Nat) : LLNode :=
  (assocGet ll.nodes nid).getD ⟨0, none, none⟩

def setNode (ll : LinkedList) (nid : Nat) (n : LLNode) : LinkedList :=
  { ll with nodes := assocSet ll.nodes nid n }

/-- JS `node.closer = c`. -/
def setCloser (ll : LinkedList) (nid : Nat) (c : Option Nat) : LinkedList :=
  setNode ll nid { getNode ll nid with closer := c }

/-- JS `node.further = f`. -/
def setFurther (ll : LinkedList) (nid : Nat) (f : Option Nat) : LinkedList :=
  setNode ll nid { getNode ll nid with further := f }

/-- Translation of `LinkedList._remove(linkedListItem)`: splice the node out of the chain,
fix `head`/`tail`, null the node's own links, decrement `_length`.  The
`closer`/`further` values are read once up front, as the source destructures
them before any mutation. -/
def removeNode (ll : LinkedList) (nid : Nat) : LinkedList :=
  let n := getNode ll nid
  let ll := match n.closer with
    | some c => setFurther ll c n.further
    | none => { ll with head := n.further }
  let ll := match n.further with
    | some f => setCloser ll f n.closer
    | none => { ll with tail := n.closer }
  let ll := setNode ll nid ⟨n.item, none, none⟩
  { ll with length := ll.length - 1 }

/-- The shared suffix of `insertAtHead`: point the old head's `closer` at the
node (or set `tail` when the list was empty), move `head`, bump `_length`. -/
def linkAsHead (ll : LinkedList) (nid : Nat) : LinkedList :=
  let ll := match ll.head with
    | some h => setCloser ll h (some nid)
    | none => { ll with tail := some nid }
  { ll with head := some nid, length := ll.length + 1 }

/-- Translation of `LinkedList.insertAtHead(item)`.  When the item is already linked the
source calls `_remove` and then relinks the very same node as head — note
that on this path nothing ever assigns the node's `further` pointer (which
`_remove` just nulled); the translation reproduces that faithfully.  When the
item is fresh, a new node is allocated with `further` set to the old head. -/
def LinkedList.insertAtHead (ll : LinkedList) (item : Nat) : LinkedList :=
  match assocGet ll.lookup item with
  | some nid =>
    let ll := removeNode ll nid
    linkAsHead ll nid
  | none =>
    let nid := ll.nextNode
    let node : LLNode := ⟨item, none, ll.head⟩
    let ll := { ll with
      nodes := assocSet ll.nodes nid node,
      lookup := assocSet ll.lookup item nid,
      nextNode := nid + 1 }
    linkAsHead ll nid

/-- Translation of `LinkedList.remove(item)`: no-op when the item is not in the lookup map,
otherwise `_remove` the node and drop the lookup entry. -/
def LinkedList.remove (ll : LinkedList) (item : Nat) : LinkedList :=
  match assocGet ll.lookup item with
  | none => ll
  | some nid =>
    let ll := removeNode ll nid
    { ll with lookup := assocDel ll.lookup item }

/-- Translation of the `tail` getter: `this._tail && this._tail.item`. -/
def LinkedList.tailItem (ll : LinkedList) : Option Nat :=
  ll.tail.map (fun nid => (getNode ll nid).item)

/-- Items listed from the head following `further` pointers (fuelled by the
heap size, which bounds any acyclic chain). -/
def furtherChainFrom (ll : LinkedList) : Nat → Option Nat → List Nat
  | 0, _ => []
  | _, none => []
  | fuel + 1, some nid => (getNode ll nid).item :: furtherChainFrom ll fuel (getNode ll nid).further

def llItems (ll : LinkedList) : List Nat :=
  furtherChainFrom ll (ll.nodes.length + 1) ll.head

/-! ## The cache orchestrator (`src/Cache.ts`, richer variant) -/

/-- The `ParamState` type: the `string | number | boolean | null` union.  Numbers are
modelled as integers (the claims never rely on fractional values or NaN). -/
inductive ParamState
  | str (s : String)
  | num (n : Int)
  | bool (b : Bool)
  | null
deriving Repr, DecidableEq

/-- Translation of `compareCallState(a, b)`: JS strict equality `===` on the union —
cross-constructor comparison is false, same-constructor comparison is value
equality. -/
def compareCallState (a b : ParamState) : Bool :=
  decide (a = b)

/-- The `EntryState` record.  `cache` is the entry's current result handle
(`none` models the transient `null` it is created with). -/
structure EntryState where
  paramHash : String
  paramState : ParamState
  cache : Option Nat
  isBeingUsed : Bool
  isResolved : Bool
deriving Repr, DecidableEq

/-- One invocation of the wrapped function: the closure of `invoke` captures
the entry object and the chained promise it just installed; the pair is what
the `.then`/`.catch` callbacks later need. -/
structure Invocation where
  entry : Nat
  promise : Nat
deriving Repr, DecidableEq

/-- The mutable state owned by one `withCache` wrapper: the entry heap
(object store, addressed by entry id), `entriesByHash` (the `Map` from
fingerprint to entry), `entriesByAccess` (the recency list over entry ids)
and fresh-id counters.  `invocations` records every call of the wrapped
function in order, so theorems can speak about how often it was invoked and
completion steps can be addressed by invocation index. -/
structure CacheState where
  entries : List (Nat × EntryState)
  entriesByHash : List (String × Nat)
  entriesByAccess : LinkedList
  nextEntry : Nat
  nextPromise : Nat
  invocations : List Invocation
deriving Repr, DecidableEq

def initCache : CacheState := ⟨[], [], LinkedList.empty, 0, 0, []⟩

/-- The `CacheSettings` the orchestrator consults: `maxEntries`, and whether
a `shouldCache` predicate was supplied.  The predicate itself, like the
wrapped function, is an external collaborator; its verdict on a concrete
outcome is passed in at resolution time. -/
structure CacheSettings where
  maxEntries : Nat
  hasShouldCache : Bool
deriving Repr, DecidableEq

def getEntry (s : CacheState) (eid : Nat) : EntryState :=
  (assocGet s.entries eid).getD ⟨"", ParamState.null, none, false, false⟩

def setEntry (s : CacheState) (eid : Nat) (e : EntryState) : CacheState :=
  { s with entries := assocSet s.entries eid e }

/-- Translation of `detach(entryState)`: remove the entry from the recency list and delete
its fingerprint from the table.  The entry object itself persists. -/
def detach (s : CacheState) (eid : Nat) : CacheState :=
  let e := getEntry s eid
  { s with
    entriesByAccess := LinkedList.remove s.entriesByAccess eid,
    entriesByHash := assocDel s.entriesByHash e.paramHash }

/-- What the wrapped function does when invoked: either it returns a pending
promise (the normal asynchronous case — settlement is delivered later via
`resolveStep`/`rejectStep`), or it throws synchronously before yielding a
promise. -/
inductive FnBehavior
  | pending
  | throwsSync
deriving Repr, DecidableEq

/-- Translation of `invoke(entryState, param, paramHash)`.  Sets `isBeingUsed`/`isResolved`,
then either installs a fresh chained promise as `cache` and clears
`isBeingUsed` (returning `some` promise id), or — when `fn` throws
synchronously — detaches the entry inside the `catch` and rethrows
(returning `none`; note `isBeingUsed` is left `true` on that path, as in the
source). -/
def invoke (s : CacheState) (eid : Nat) : FnBehavior → CacheState × Option Nat
  | .pending =>
    let e := getEntry s eid
    let pid := s.nextPromise
    let s := setEntry s eid { e with isBeingUsed := false, isResolved := false, cache := some pid }
    ({ s with nextPromise := pid + 1, invocations := s.invocations ++ [⟨eid, pid⟩] }, some pid)
  | .throwsSync =>
    let e := getEntry s eid
    let s := setEntry s eid { e with isBeingUsed := true, isResolved := false }
    (detach s eid, none)

/-- How a call can fail synchronously: the reentrancy guard's
`Error("Recursion on exactly the same cached computation detected.")`, or a
synchronous throw of the wrapped function rethrown by `invoke`. -/
inductive CallError
  | reentrantRecursion
  | syncThrow
deriving Repr, DecidableEq

/-- One call of the cached function (the arrow function returned by
`withCache`), already fingerprinted: `paramHash = paramHasher(param)` and
`callState = paramState(param)` are computed by pure caller-supplied
callbacks, so the call is parameterised by their outputs.  Returns the new
state together with the result handle (`entryState.cache`) or the error
thrown. -/
def withCacheCall (cfg : CacheSettings) (s : CacheState) (paramHash : String)
    (callState : ParamState) (beh : FnBehavior) :
    CacheState × Except CallError (Option Nat) :=
  match assocGet s.entriesByHash paramHash with
  | some eid =>
    let e := getEntry s eid
    if e.isBeingUsed then
      (s, .error .reentrantRecursion)
    else
      let isCacheUseable := compareCallState callState e.paramState && e.isResolved
      if isCacheUseable then
        let s := { s with entriesByAccess := s.entriesByAccess.insertAtHead eid }
        (s, .ok (getEntry s eid).cache)
      else
        let s := setEntry s eid { e with paramState := callState }
        match invoke s eid beh with
        | (s, some _) =>
          let s := { s with entriesByAccess := s.entriesByAccess.insertAtHead eid }
          (s, .ok (getEntry s eid).cache)
        | (s, none) => (s, .error .syncThrow)
  | none =>
    let eid := s.nextEntry
    let e : EntryState :=
      { paramState := callState, paramHash := paramHash,
        isBeingUsed := true, isResolved := false, cache := none }
    let s := { s with entries := assocSet s.entries eid e, nextEntry := eid + 1 }
    let s := { s with entriesByAccess := s.entriesByAccess.insertAtHead eid }
    let s := { s with entriesByHash := assocSet s.entriesByHash paramHash eid }
    match invoke s eid beh with
    | (s, some _) =>
      let s :=
        if s.entriesByAccess.length > cfg.maxEntries then
          match s.entriesByAccess.tailItem with
          | some tid =>
            { s with
              entriesByAccess := s.entriesByAccess.remove tid,
              entriesByHash := assocDel s.entriesByHash (getEntry s tid).paramHash }
          | none => s
        else s
      (s, .ok (getEntry s eid).cache)
    | (s, none) => (s, .error .syncThrow)

/-- A JavaScript value as observed by a holder of the outer result handle:
either `undefined` or a proper result (abstracted as a number). -/
inductive JsVal
  | undef
  | val (v : Nat)
deriving Repr, DecidableEq

/-- How the outer chained promise (the handle callers hold) settles. -/
inductive Settlement
  | fulfilled (v : JsVal)
  | rejected
deriving Repr, DecidableEq

/-- The `.then` callback of the chained promise, run when the wrapped
function's result resolves with `result`.  `shouldCacheResult` is the
verdict of the configured `shouldCache` predicate on this outcome.  Acts only
when the entry's current handle is still this invocation's promise; on the
stale path the callback body is skipped and the chained promise fulfils with
`undefined`. -/
def resolveStep (cfg : CacheSettings) (s : CacheState) (inv : Invocation)
    (result : Nat) (shouldCacheResult : Bool) : CacheState × Settlement :=
  let e := getEntry s inv.entry
  if e.cache = some inv.promise then
    let s := setEntry s inv.entry { e with isResolved := true }
    let s := if cfg.hasShouldCache && !shouldCacheResult then detach s inv.entry else s
    (s, .fulfilled (.val result))
  else
    (s, .fulfilled .undef)

/-- The `.catch` callback: when the entry's current handle is still this
invocation's promise, detach the entry; in every case rethrow, so the outer
handle rejects. -/
def rejectStep (s : CacheState) (inv : Invocation) : CacheState × Settlement :=
  let e := getEntry s inv.entry
  if e.cache = some inv.promise then
    (detach s inv.entry, .rejected)
  else
    (s, .rejected)

/-- Events an execution interleaves: calls of the cached function (with the
wrapped function returning a pending promise) and settlements of earlier
invocations, addressed by their index in `invocations`. -/
inductive CacheEvent
  | call (paramHash : String) (callState : ParamState)
  | resolve (idx : Nat) (result : Nat) (shouldCacheResult : Bool)
  | reject (idx : Nat)
deriving Repr, DecidableEq

def runEvent (cfg : CacheSettings) (s : CacheState) : CacheEvent → CacheState
  | .call h st => (withCacheCall cfg s h st .pending).1
  | .resolve i r b =>
    match s.invocations.get? i with
    | some inv => (resolveStep cfg s inv r b).1
    | none => s
  | .reject i =>
    match s.invocations.get? i with
    | some inv => (rejectStep s inv).1
    | none => s

def runEvents (cfg : CacheSettings) (s : CacheState) (evts : List CacheEvent) : CacheState :=
  evts.foldl (runEvent cfg) s

/-! ## Concrete configurations, traces and witness states -/

/-- Configuration with `maxEntries = 2` and no `shouldCache` predicate. -/
def cfg2 : CacheSettings := ⟨2, false⟩

/-- Configuration with `maxEntries = 2` and a `shouldCache` predicate. -/
def cfgSC : CacheSettings := ⟨2, true⟩

/-- Fingerprints A, B are called; B is called again while its first result is
pending (so it is re-invoked), then B's second promise rejects, detaching B
but — through the broken `further` pointer of the promoted head — also
nulling the list's `head`/`tail` while A's node stays linked. -/
def traceCorrupt : List CacheEvent :=
  [.call "A" .null, .call "B" .null, .call "B" .null, .reject 2, .call "C" .null]

/-- Trace `traceCorrupt` followed by a call with a fresh fingerprint D, which
pushes the list length past `maxEntries` and evicts the tail. -/
def traceC1 : List CacheEvent := traceCorrupt ++ [.call "D" .null]

/-- Trace `traceCorrupt`, then A's original promise resolves and A is called again
(a pure reuse, which promotes A's orphaned node and leaves the list's `tail`
pointing at B's long-detached node). -/
def traceDangling : List CacheEvent :=
  traceCorrupt ++ [.resolve 0 7 true, .call "A" .null]

/-- Trace `traceDangling` followed by a call with fresh fingerprint D: the list
length (3) exceeds `maxEntries` (2) but the eviction targets the dangling
node's entry, which is in neither structure, and removes nothing. -/
def traceC4 : List CacheEvent := traceDangling ++ [.call "D" .null]

/-- Items 0 and 1 inserted, then item 1 promoted via `insertAtHead` while
already linked. -/
def llC2 : LinkedList :=
  ((LinkedList.empty.insertAtHead 0).insertAtHead 1).insertAtHead 1

/-- One call of fingerprint A whose promise has resolved: the canonical state
in which a second identical call is a pure reuse. -/
def reuseReadyState : CacheState :=
  runEvents cfg2 initCache [.call "A" .null, .resolve 0 5 true]

/-- The state in the middle of `invoke` for a fresh fingerprint A: the entry
is in the table and the list, `isBeingUsed` is `true`, and no result handle
exists yet — exactly what a reentrant call issued by the wrapped function
itself observes. -/
def midInvokeState : CacheState :=
  ⟨[(0, ⟨"A", ParamState.null, none, true, false⟩)], [("A", 0)],
    LinkedList.empty.insertAtHead 0, 1, 0, []⟩

/-- One call of fingerprint A, its promise still pending. -/
def pendingAState : CacheState :=
  (withCacheCall cfg2 initCache "A" ParamState.null FnBehavior.pending).1

/-- Same as `pendingAState` but under a configuration with `shouldCache`. -/
def pendingAStateSC : CacheState :=
  (withCacheCall cfgSC initCache "A" ParamState.null FnBehavior.pending).1

/-- Fingerprint A called twice while pending: the second call re-invokes, so
the entry's current handle (promise 1) has superseded promise 0, which some
caller still holds. -/
def supersededState : CacheState :=
  runEvents cfg2 initCache [.call "A" .null, .call "A" .null]

/-! ## Helper lemmas -/

@[simp]
theorem assocGet_set_self {κ α : Type} [BEq κ] [LawfulBEq κ] (l : List (κ × α)) (k : κ) (v : α) :
    assocGet (assocSet l k v) k = some v := by
  unfold assocGet assocSet
  rw [List.find?_cons_of_pos _ (by simp)]
  rfl

@[simp]
theorem assocGet_del_self {κ α : Type} [BEq κ] [LawfulBEq κ] (l : List (κ × α)) (k : κ) :
    assocGet (assocDel l k) k = none := by
  unfold assocGet assocDel
  have h : List.find? (fun p => p.1 == k) (List.filter (fun p => p.1 != k) l) = none := by
    rw [List.find?_eq_none]
    intro x hx
    simp only [List.mem_filter, bne_iff_ne, ne_eq] at hx
    simpa using hx.2
  rw [h]
  rfl

@[simp]
theorem getEntry_setEntry_self (s : CacheState) (eid : Nat) (e : EntryState) :
    getEntry (setEntry s eid e) eid = e := by
  simp [getEntry, setEntry]

/-- The `_remove` helper never touches the lookup map. -/
@[simp]
theorem removeNode_lookup (ll : LinkedList) (nid : Nat) :
    (removeNode ll nid).lookup = ll.lookup := by
  unfold removeNode
  rcases h1 : (getNode ll nid).closer with _ | c <;>
    rcases h2 : (getNode ll nid).further with _ | f <;>
      simp [h1, h2, setFurther, setCloser, setNode]

/-- After `remove(item)` the item is not in the lookup map (whether or not it
was before). -/
@[simp]
theorem remove_lookup_self (ll : LinkedList) (i : Nat) :
    assocGet (ll.remove i).lookup i = none := by
  unfold LinkedList.remove
  cases h : assocGet ll.lookup i with
  | none => simpa using h
  | some nid => simp

/-- A call whose fingerprint is not in the table takes the new-entry path:
it records exactly one fresh invocation of the wrapped function and returns
the fresh handle, whatever eviction then does. -/
theorem withCacheCall_fresh_invokes (cfg : CacheSettings) (s : CacheState)
    (h : String) (st : ParamState)
    (hnone : assocGet s.entriesByHash h = none) :
    (withCacheCall cfg s h st .pending).1.invocations
      = s.invocations ++ [⟨s.nextEntry, s.nextPromise⟩]
    ∧ (withCacheCall cfg s h st .pending).2 = Except.ok (some s.nextPromise) := by
  unfold withCacheCall
  rw [hnone]
  simp only [invoke, getEntry, setEntry]
  split
  · split <;> simp [getEntry]
  · simp [getEntry]

/-! ## Claim theorems -/

deriving instance DecidableEq for Except

/-- Claim C5: a call whose fingerprint matches an existing entry whose
`isBeingUsed` flag is still set (the prior call's synchronous invocation
phase has not finished) fails synchronously with the reentrant-recursion
error, does not invoke the wrapped function, and leaves the entry table, the
recency list and the entry itself completely unchanged — the returned state
is the input state. -/
theorem c5_reentrancy_guard (cfg : CacheSettings) (s : CacheState)
    (paramHash : String) (callState : ParamState) (beh : FnBehavior)
    (eid : Nat) (e : EntryState)
    (h1 : assocGet s.entriesByHash paramHash = some eid)
    (h2 : assocGet s.entries eid = some e)
    (h3 : e.isBeingUsed = true) :
    withCacheCall cfg s paramHash callState beh = (s, .error .reentrantRecursion) := by
  unfold withCacheCall
  rw [h1]
  simp [getEntry, h2, h3]

/-- Witness for C5: the state in the middle of `invoke` for fingerprint A —
entry present, `isBeingUsed = true`, no handle yet — makes a same-fingerprint
call fail with the reentrancy error and change nothing. -/
theorem c5_reentrancy_guard_witness :
    withCacheCall cfg2 midInvokeState "A" ParamState.null FnBehavior.pending
      = (midInvokeState, .error .reentrantRecursion) :=
  c5_reentrancy_guard cfg2 midInvokeState "A" ParamState.null FnBehavior.pending 0
    ⟨"A", ParamState.null, none, true, false⟩ (by decide) (by decide) (by decide)

/-- Claim C3 (amended): reuse requires the entry to be resolved.  When the
fingerprint matches a tracked entry that is not mid-invocation, whose stored
state strictly equals the call's state, and whose result has resolved, the
call returns the entry's existing handle unchanged and touches nothing but
the recency list — in particular the wrapped function is not invoked again
(`entries` and `invocations` are untouched in the resulting state). -/
theorem c3_resolved_reuse (cfg : CacheSettings) (s : CacheState)
    (paramHash : String) (callState : ParamState) (beh : FnBehavior)
    (eid : Nat) (e : EntryState)
    (h1 : assocGet s.entriesByHash paramHash = some eid)
    (h2 : assocGet s.entries eid = some e)
    (h3 : e.isBeingUsed = false)
    (h4 : compareCallState callState e.paramState = true)
    (h5 : e.isResolved = true) :
    withCacheCall cfg s paramHash callState beh
      = ({ s with entriesByAccess := s.entriesByAccess.insertAtHead eid },
         Except.ok e.cache) := by
  unfold withCacheCall
  rw [h1]
  simp [getEntry, h2, h3, h4, h5]

/-- Witness for C3: after fingerprint A's first call resolved, an identical
second call returns the original handle (promise 0) and performs no new
invocation. -/
theorem c3_resolved_reuse_witness :
    withCacheCall cfg2 reuseReadyState "A" ParamState.null FnBehavior.pending
      = ({ reuseReadyState with
            entriesByAccess := reuseReadyState.entriesByAccess.insertAtHead 0 },
         Except.ok (some 0)) :=
  c3_resolved_reuse cfg2 reuseReadyState "A" ParamState.null FnBehavior.pending 0
    ⟨"A", ParamState.null, some 0, false, true⟩
    (by decide) (by decide) (by decide) (by decide) (by decide)

/-- Claim C3 is refuted as stated: with the richer variant, a second call for
the same fingerprint and unchanged state arriving after the first call's
synchronous invocation phase but before its result resolves does NOT reuse
the pending handle.  The first call returns handle 0, the second returns a
fresh handle 1, and the wrapped function has been invoked twice. -/
theorem c3_counter_pending_not_reused :
    (withCacheCall cfg2 initCache "A" ParamState.null FnBehavior.pending).2
      = Except.ok (some 0)
    ∧ (withCacheCall cfg2 pendingAState "A" ParamState.null FnBehavior.pending).2
      = Except.ok (some 1)
    ∧ (withCacheCall cfg2 pendingAState "A" ParamState.null FnBehavior.pending).1.invocations
      = [⟨0, 0⟩, ⟨0, 1⟩] := by
  decide

/-- Claim C7: when the fingerprint matches a tracked entry not mid-invocation
and the call's state differs from the stored state under strict equality, the
stored state is updated to the new value, the wrapped function is invoked
again (one invocation is appended), and the fresh handle replaces the old one
in the entry and is returned. -/
theorem c7_invalidation (cfg : CacheSettings) (s : CacheState)
    (paramHash : String) (callState : ParamState) (eid : Nat) (e : EntryState)
    (h1 : assocGet s.entriesByHash paramHash = some eid)
    (h2 : assocGet s.entries eid = some e)
    (h3 : e.isBeingUsed = false)
    (h4 : compareCallState callState e.paramState = false)
    (h5 : e.cache ≠ some s.nextPromise) :
    (withCacheCall cfg s paramHash callState .pending).2 = Except.ok (some s.nextPromise)
    ∧ getEntry (withCacheCall cfg s paramHash callState .pending).1 eid
        = ⟨e.paramHash, callState, some s.nextPromise, false, false⟩
    ∧ (withCacheCall cfg s paramHash callState .pending).1.invocations
        = s.invocations ++ [⟨eid, s.nextPromise⟩]
    ∧ (getEntry (withCacheCall cfg s paramHash callState .pending).1 eid).cache
        ≠ e.cache := by
  unfold withCacheCall
  rw [h1]
  refine ⟨?_, ?_, ?_, ?_⟩ <;>
    simp [getEntry, setEntry, invoke, h2, h3, h4]
  exact Ne.symm h5

/-- Witness for C7: fingerprint A is pending with stored state `null`; a call
with state `num 1` re-invokes and installs and returns the fresh handle 1. -/
theorem c7_invalidation_witness :
    (withCacheCall cfg2 pendingAState "A" (ParamState.num 1) .pending).2 = Except.ok (some 1)
    ∧ getEntry (withCacheCall cfg2 pendingAState "A" (ParamState.num 1) .pending).1 0
        = ⟨"A", ParamState.num 1, some 1, false, false⟩
    ∧ (withCacheCall cfg2 pendingAState "A" (ParamState.num 1) .pending).1.invocations
        = pendingAState.invocations ++ [⟨0, 1⟩]
    ∧ (getEntry (withCacheCall cfg2 pendingAState "A" (ParamState.num 1) .pending).1 0).cache
        ≠ (getEntry pendingAState 0).cache := by
  have h := c7_invalidation cfg2 pendingAState "A" (ParamState.num 1) 0
    ⟨"A", ParamState.null, some 0, false, false⟩
    (by decide) (by decide) (by decide) (by decide) (by decide)
  exact h

/-- Claim C10: when an invocation's result resolves but the entry's current
handle is no longer that invocation's promise (a later invalidation replaced
it), the completion callback's guarded body is skipped — the state is
unchanged and the superseded handle fulfils with `undefined` instead of the
computed value. -/
theorem c10_stale_resolution_fulfils_undefined (cfg : CacheSettings) (s : CacheState)
    (inv : Invocation) (result : Nat) (shouldCacheResult : Bool)
    (hne : (getEntry s inv.entry).cache ≠ some inv.promise) :
    resolveStep cfg s inv result shouldCacheResult = (s, .fulfilled .undef) := by
  unfold resolveStep
  rw [if_neg hne]

/-- Witness for C10: fingerprint A was called twice while pending, so handle 1
superseded handle 0; resolving invocation ⟨0, 0⟩ with value 9 leaves the state
untouched and fulfils the stale handle with `undefined`. -/
theorem c10_stale_resolution_witness :
    resolveStep cfg2 supersededState ⟨0, 0⟩ 9 true = (supersededState, .fulfilled .undef) :=
  c10_stale_resolution_fulfils_undefined cfg2 supersededState ⟨0, 0⟩ 9 true (by decide)

/-- Claim C6: when the wrapped function's result rejects and the entry's
current handle is still the rejected invocation's promise, the entry is
detached — its fingerprint leaves the table and its node leaves the list's
lookup — and the rejection propagates to the holders of the handle; a
subsequent call with the same fingerprint then takes the new-entry path,
invoking the wrapped function again and returning a fresh handle instead of
reusing the failure. -/
theorem c6_rejection_detaches_and_reinvokes (cfg : CacheSettings) (s : CacheState)
    (inv : Invocation) (e : EntryState) (callState : ParamState)
    (h2 : assocGet s.entries inv.entry = some e)
    (hc : e.cache = some inv.promise) :
    (rejectStep s inv).2 = .rejected
    ∧ assocGet (rejectStep s inv).1.entriesByHash e.paramHash = none
    ∧ assocGet (rejectStep s inv).1.entriesByAccess.lookup inv.entry = none
    ∧ (withCacheCall cfg (rejectStep s inv).1 e.paramHash callState .pending).1.invocations
        = s.invocations ++ [⟨s.nextEntry, s.nextPromise⟩]
    ∧ (withCacheCall cfg (rejectStep s inv).1 e.paramHash callState .pending).2
        = Except.ok (some s.nextPromise) := by
  have hstep : rejectStep s inv
      = ({ s with
            entriesByAccess := s.entriesByAccess.remove inv.entry,
            entriesByHash := assocDel s.entriesByHash e.paramHash },
         Settlement.rejected) := by
    unfold rejectStep detach
    simp [getEntry, h2, hc]
  have hfresh := withCacheCall_fresh_invokes cfg (rejectStep s inv).1 e.paramHash callState
    (by rw [hstep]; simp)
  rw [hstep] at hfresh ⊢
  simpa using hfresh

/-- Witness for C6: fingerprint A's pending invocation ⟨0, 0⟩ rejects; the
entry is detached from table and list, the handle rejects, and a subsequent
call for A invokes the wrapped function again, returning fresh handle 1. -/
theorem c6_rejection_witness :
    (rejectStep pendingAState ⟨0, 0⟩).2 = .rejected
    ∧ assocGet (rejectStep pendingAState ⟨0, 0⟩).1.entriesByHash "A" = none
    ∧ assocGet (rejectStep pendingAState ⟨0, 0⟩).1.entriesByAccess.lookup 0 = none
    ∧ (withCacheCall cfg2 (rejectStep pendingAState ⟨0, 0⟩).1 "A" ParamState.null .pending).1.invocations
        = pendingAState.invocations ++ [⟨1, 1⟩]
    ∧ (withCacheCall cfg2 (rejectStep pendingAState ⟨0, 0⟩).1 "A" ParamState.null .pending).2
        = Except.ok (some 1) := by
  have h := c6_rejection_detaches_and_reinvokes cfg2 pendingAState ⟨0, 0⟩
    ⟨"A", ParamState.null, some 0, false, false⟩ ParamState.null (by decide) (by decide)
  exact h

/-- Claim C8: with a `shouldCache` predicate configured, when a computation
resolves and the predicate returns `false` for the outcome: if the entry's
current handle is still this invocation's promise, the handle fulfils with
the computed value but the entry is detached from table and list, so a
subsequent call with the same fingerprint takes the new-entry path and
invokes the wrapped function afresh; if the handle has been superseded, the
completion callback does not act — the state is returned unchanged. -/
theorem c8_shouldCache_false_detaches (cfg : CacheSettings) (s : CacheState)
    (inv : Invocation) (e : EntryState) (result : Nat) (callState : ParamState)
    (hcfg : cfg.hasShouldCache = true)
    (h2 : assocGet s.entries inv.entry = some e) :
    (e.cache = some inv.promise →
      (resolveStep cfg s inv result false).2 = .fulfilled (.val result)
      ∧ assocGet (resolveStep cfg s inv result false).1.entriesByHash e.paramHash = none
      ∧ assocGet (resolveStep cfg s inv result false).1.entriesByAccess.lookup inv.entry = none
      ∧ (withCacheCall cfg (resolveStep cfg s inv result false).1 e.paramHash callState
            .pending).1.invocations
          = s.invocations ++ [⟨s.nextEntry, s.nextPromise⟩]
      ∧ (withCacheCall cfg (resolveStep cfg s inv result false).1 e.paramHash callState
            .pending).2
          = Except.ok (some s.nextPromise))
    ∧ (e.cache ≠ some inv.promise →
        resolveStep cfg s inv result false = (s, .fulfilled .undef)) := by
  constructor
  · intro hc
    have hstep : resolveStep cfg s inv result false
        = ({ s with
              entries := assocSet s.entries inv.entry { e with isResolved := true },
              entriesByAccess := s.entriesByAccess.remove inv.entry,
              entriesByHash := assocDel s.entriesByHash e.paramHash },
           Settlement.fulfilled (.val result)) := by
      unfold resolveStep detach
      simp [getEntry, setEntry, h2, hc, hcfg]
    have hfresh := withCacheCall_fresh_invokes cfg (resolveStep cfg s inv result false).1
      e.paramHash callState (by rw [hstep]; simp)
    rw [hstep] at hfresh ⊢
    simpa using hfresh
  · intro hne
    unfold resolveStep
    rw [if_neg (by simpa [getEntry, h2] using hne)]

/-- Witness for C8: under `cfgSC`, fingerprint A's pending invocation ⟨0, 0⟩
resolves with value 9 and the predicate says not to cache it: the handle
fulfils with 9, the entry is detached, and a subsequent A-call re-invokes,
returning fresh handle 1.  (The stale direction holds vacuously here, its
antecedent being false at this input.) -/
theorem c8_shouldCache_false_witness :
    ((⟨"A", ParamState.null, some 0, false, false⟩ : EntryState).cache = some 0 →
      (resolveStep cfgSC pendingAStateSC ⟨0, 0⟩ 9 false).2 = .fulfilled (.val 9)
      ∧ assocGet (resolveStep cfgSC pendingAStateSC ⟨0, 0⟩ 9 false).1.entriesByHash "A" = none
      ∧ assocGet (resolveStep cfgSC pendingAStateSC ⟨0, 0⟩ 9 false).1.entriesByAccess.lookup 0 = none
      ∧ (withCacheCall cfgSC (resolveStep cfgSC pendingAStateSC ⟨0, 0⟩ 9 false).1 "A"
            ParamState.null .pending).1.invocations
          = pendingAStateSC.invocations ++ [⟨1, 1⟩]
      ∧ (withCacheCall cfgSC (resolveStep cfgSC pendingAStateSC ⟨0, 0⟩ 9 false).1 "A"
            ParamState.null .pending).2
          = Except.ok (some 1))
    ∧ ((⟨"A", ParamState.null, some 0, false, false⟩ : EntryState).cache ≠ some 0 →
        resolveStep cfgSC pendingAStateSC ⟨0, 0⟩ 9 false = (pendingAStateSC, .fulfilled .undef)) := by
  have h := c8_shouldCache_false_detaches cfgSC pendingAStateSC ⟨0, 0⟩
    ⟨"A", ParamState.null, some 0, false, false⟩ 9 ParamState.null (by decide) (by decide)
  exact h

/-- Claim C1 is violated by the code: after `traceCorrupt` (whose detach of
the corrupted promoted head nulls the list's `head`/`tail` while fingerprint
A stays tracked), both A and C are tracked and C was accessed strictly more
recently than A (A at the first event, C at the fifth, and never again); yet
the eviction triggered by the call with fresh fingerprint D removes C and
keeps A — the less recently accessed tracked entry survives. -/
theorem c1_eviction_removes_more_recent_entry :
    assocGet (runEvents cfg2 initCache traceCorrupt).entriesByHash "A" = some 0
    ∧ assocGet (runEvents cfg2 initCache traceCorrupt).entriesByHash "C" = some 2
    ∧ assocGet (runEvents cfg2 initCache traceC1).entriesByHash "C" = none
    ∧ assocGet (runEvents cfg2 initCache traceC1).entriesByHash "A" = some 0 := by
  decide

/-- Claim C2 is violated by the code: after inserting items 0 and 1 and then
promoting the already-linked item 1 via `insertAtHead`, the list is not a
consistent doubly-linked chain over both items — the promoted head's
`further` pointer was left `null`, so the chain reachable from the head is
just `[1]` although both items are linked and `length = 2`.  The corruption
is observable through the public interface: removing item 1 afterwards
leaves `length = 1` with `head` and `tail` both empty, although item 0 is
still linked. -/
theorem c2_promote_breaks_chain :
    llItems llC2 = [1]
    ∧ llC2.length = 2
    ∧ assocGet llC2.lookup 0 = some 0
    ∧ assocGet llC2.lookup 1 = some 1
    ∧ (llC2.remove 1).length = 1
    ∧ (llC2.remove 1).tailItem = none
    ∧ (llC2.remove 1).head = none
    ∧ assocGet (llC2.remove 1).lookup 0 = some 0 := by
  decide

/-- Claim C4 is violated by the code: after `traceC4` — whose final call's
bookkeeping, eviction included, has completed — three entries (A, C, D) are
tracked although `maxEntries = 2`: the eviction aimed at a dangling tail
node whose entry had already been detached and removed nothing. -/
theorem c4_tracked_entries_exceed_max :
    (runEvents cfg2 initCache traceC4).entriesByHash.length = 3
    ∧ cfg2.maxEntries = 2 := by
  decide

/-- Claim C9 is violated by the code: starting from the `traceDangling`
state, the call with fresh fingerprint D creates a new entry and pushes the
list length to 3, exceeding `maxEntries = 2`, yet no tracked entry is
removed: A, C and D all remain in the table after the call (the `tail`
reference names the long-detached entry B, and removing it from both
structures is a no-op).  The call does still invoke the wrapped function and
return its fresh handle. -/
theorem c9_capacity_exceeded_evicts_nothing :
    assocGet (runEvents cfg2 initCache traceDangling).entriesByHash "D" = none
    ∧ (withCacheCall cfg2 (runEvents cfg2 initCache traceDangling) "D" ParamState.null
        FnBehavior.pending).2 = Except.ok (some 4)
    ∧ (withCacheCall cfg2 (runEvents cfg2 initCache traceDangling) "D" ParamState.null
        FnBehavior.pending).1.entriesByAccess.length = 3
    ∧ assocGet (withCacheCall cfg2 (runEvents cfg2 initCache traceDangling) "D" ParamState.null
        FnBehavior.pending).1.entriesByHash "A" = some 0
    ∧ assocGet (withCacheCall cfg2 (runEvents cfg2 initCache traceDangling) "D" ParamState.null
        FnBehavior.pending).1.entriesByHash "C" = some 2
    ∧ assocGet (withCacheCall cfg2 (runEvents cfg2 initCache traceDangling) "D" ParamState.null
        FnBehavior.pending).1.entriesByHash "D" = some 3
    ∧ cfg2.maxEntries = 2 := by
  decide

end SimpleCache
